import Mathlib

/- Shallow embedding of the conversation thread router ("subchat" subsystem) of the
core-dashboard-staff repository: `subChatManager.ts`, `matchingAlgorithms.ts`,
`subChatUtils.ts`, the subchat API layer, and the subchat-management slice of
`processMessage` in the message handler.  Scores are rationals; JS `Date` timestamps are
natural-number epoch milliseconds; the timestamp-and-randomness based id generators are a
deterministic counter (the source only needs generated ids to be fresh). -/

attribute [local semireducible] Rat.mul Rat.add Rat.sub Rat.inv Rat.ofScientific

/-! ## String helpers (kernel-reducible stand-ins for the JS string operations) -/

/-- JS `s.toLowerCase()`, modelled per character. -/
def lowerStr (s : String) : String := ⟨s.data.map Char.toLower⟩

/-- The needle (second list) occurs at the start of the haystack (first list). -/
def leadsWith : List Char → List Char → Bool
  | _, [] => true
  | [], _ :: _ => false
  | a :: as, b :: bs => a == b && leadsWith as bs

/-- The needle (second list) occurs somewhere in the haystack (first list). -/
def occursIn : List Char → List Char → Bool
  | [], needle => needle.isEmpty
  | a :: as, needle => leadsWith (a :: as) needle || occursIn as needle

/-- JS `hay.includes(needle)` (substring containment). -/
def strIncludes (hay needle : String) : Bool := occursIn hay.data needle.data

/-- Split a character list at every character satisfying `p`, keeping empty pieces — the
behaviour of JS `split` with a one-character separator.  Every use of `split(/\s+/)` in the
source filters the pieces by `length > 2` afterwards, which makes this splitter agree with
the regex there as well. -/
def splitChars (p : Char → Bool) : List Char → List Char → List String
  | [], acc => [⟨acc.reverse⟩]
  | c :: cs, acc =>
    if p c then (⟨acc.reverse⟩ : String) :: splitChars p cs []
    else splitChars p cs (c :: acc)

/-- JS `s.split(/\s+/)` up to empty pieces (always filtered out by the callers). -/
def splitWhitespace (s : String) : List String := splitChars (·.isWhitespace) s.data []

/-- JS `s.split(' ')`. -/
def splitOnSpace (s : String) : List String := splitChars (· == ' ') s.data []

/-- Deduplication keeping the first occurrence, i.e. JS `[...new Set(xs)]`. -/
def dedupFirst : List String → List String → List String
  | [], _ => []
  | x :: xs, seen =>
    if seen.contains x then dedupFirst xs seen else x :: dedupFirst xs (x :: seen)

/-- JS truthiness of an optional string field (`undefined` and `""` are falsy). -/
def strTruthy : Option String → Bool
  | none => false
  | some s => !s.isEmpty

/-! ## The classifier's output shape (`classifyIntent.ts`) -/

/-- One mentioned item inside the classifier's `RequestDetails`.  (`extracted_quantity` may
be a number or a string in TS; a string subsumes both here, and no use site inspects it.) -/
structure PotentialItemMentioned where
  guest_phrasing_for_item : String
  guessed_item_name : String
  extracted_quantity : Option String
  extracted_time_preference : Option String
deriving DecidableEq, Repr

/-- The per-intent `details` payload; `emptyDetails` covers both an absent `details` field
and the empty object used for `general` intents (every use site treats them alike). -/
inductive IntentDetails where
  | requestDetails (potential_items_mentioned : List PotentialItemMentioned)
  | faqDetails (faq_query_text : String) (faq_keywords : List String)
  | complaintDetails (complaint_summary : String) (complaint_keywords : List String)
  | emptyDetails
deriving DecidableEq, Repr

/-- One entry of `ClassifiedOutput.intents`.  `type` is a string because `typesMatch` and
`mapIntentToSubChatType` both accept arbitrary intent-type strings. -/
structure IntentObject where
  type : String
  confidence : ℚ
  details : IntentDetails
deriving DecidableEq, Repr

structure ClassifiedOutput where
  language : String
  overall_sentiment : String
  intents : List IntentObject
deriving DecidableEq, Repr

/-! ## The thread (subchat) data model (`subChatManager.ts`) -/

inductive SubChatType where
  | request
  | complaint
  | faq
  | general
  | upsell
deriving DecidableEq, Repr

inductive SubChatStatus where
  | open_
  | awaiting_confirmation
  | resolved
  | cancelled
deriving DecidableEq, Repr

inductive MessageRole where
  | user
  | assistant
deriving DecidableEq, Repr

structure SubChatMessage where
  id : String
  content : String
  role : MessageRole
  timestamp : Nat
deriving DecidableEq, Repr

structure SubChatContext where
  intent : ClassifiedOutput
  relatedKeywords : List String
  itemName : Option String
  itemId : Option String
  quantity : Option String
  timingPreference : Option String
  complaintSummary : Option String
  department : Option String
  faqQuery : Option String
  faqKeywords : Option (List String)
  lastResponse : Option String
deriving DecidableEq, Repr

structure SubChat where
  id : String
  sessionCode : String
  type : SubChatType
  status : SubChatStatus
  context : SubChatContext
  messages : List SubChatMessage
  createdAt : Nat
  updatedAt : Nat
  lastUserMessage : Option String
  isActive : Bool
deriving DecidableEq, Repr

/-! ## Keyword extraction and scoring (`matchingAlgorithms.ts`) -/

/-- The fixed stop-word list of `extractKeywords` (the `/^(the|and|...)$/` regex). -/
def stopWords : List String :=
  ["the", "and", "but", "for", "are", "was", "were", "been", "have", "has", "had",
   "do", "does", "did", "will", "would", "could", "should", "may", "might", "can",
   "a", "an", "to", "of", "in", "on", "at", "by", "with", "from"]

/-- Keywords contributed by one intent's `details` in `extractKeywords`: FAQ keywords,
complaint keywords, and for each potential item the guest phrasing and the guessed item
name, lowercased and split on whitespace. -/
def detailKeywords : IntentDetails → List String
  | .requestDetails items =>
    items.foldl (fun acc item =>
      acc ++ splitWhitespace (lowerStr item.guest_phrasing_for_item)
          ++ splitWhitespace (lowerStr item.guessed_item_name)) []
  | .faqDetails _ kws => kws
  | .complaintDetails _ kws => kws
  | .emptyDetails => []

/-- `extractKeywords(intent, message)`: lowercased message words of length > 2 that are not
stop words, then the detail keywords of every intent, deduplicated as a JS `Set` and
filtered to length > 2 again. -/
def extractKeywords (intent : ClassifiedOutput) (message : String) : List String :=
  let messageWords :=
    ((splitWhitespace (lowerStr message)).filter (fun w => w.length > 2)).filter
      (fun w => !stopWords.contains w)
  let keywords :=
    messageWords ++ intent.intents.foldl (fun acc io => acc ++ detailKeywords io.details) []
  (dedupFirst keywords []).filter (fun w => w.length > 2)

/-- `calculateKeywordOverlap`: 0 when either input list is empty, otherwise the Jaccard
similarity of the two lists lowercased and viewed as sets (JS `Set`s modelled as `Finset`s;
only their sizes are used). -/
def calculateKeywordOverlap (keywords1 keywords2 : List String) : ℚ :=
  if keywords1.length = 0 ∨ keywords2.length = 0 then 0
  else
    let set1 := (keywords1.map lowerStr).toFinset
    let set2 := (keywords2.map lowerStr).toFinset
    ((set1 ∩ set2).card : ℚ) / ((set1 ∪ set2).card : ℚ)

/-- The fixed complaint lexicon of `calculateContextScore`. -/
def complaintWords : List String := ["issue", "problem", "complaint", "wrong", "broken", "not working"]

/-- The fixed interrogative lexicon of `calculateContextScore`. -/
def questionWords : List String := ["what", "when", "where", "how", "why", "can", "is", "are"]

/-- `calculateContextScore(subchat, messageLower)`: 0.6 for a verbatim item-name mention
plus a 0.3-weighted fraction of item-name words found in the message; 0.4 for complaint
language on complaint threads with a (truthy) summary; 0.3 for question words on FAQ
threads with a (truthy) query; capped at 1. -/
def calculateContextScore (subchat : SubChat) (messageLower : String) : ℚ :=
  let itemScore : ℚ :=
    match subchat.context.itemName with
    | some itemName0 =>
      if itemName0.isEmpty then 0
      else
        let itemName := lowerStr itemName0
        let base : ℚ := if strIncludes messageLower itemName then 0.6 else 0
        let itemWords := splitOnSpace itemName
        let matchedWords := itemWords.filter (fun w => w.length > 2 && strIncludes messageLower w)
        base + ((matchedWords.length : ℚ) / (itemWords.length : ℚ)) * 0.3
    | none => 0
  let complaintScore : ℚ :=
    if subchat.type = .complaint ∧ strTruthy subchat.context.complaintSummary = true then
      if complaintWords.any (fun w => strIncludes messageLower w) then 0.4 else 0
    else 0
  let faqScore : ℚ :=
    if subchat.type = .faq ∧ strTruthy subchat.context.faqQuery = true then
      if questionWords.any (fun w => strIncludes messageLower w) then 0.3 else 0
    else 0
  min (itemScore + complaintScore + faqScore) 1

/-- The fixed back-reference phrase list of `calculateReferenceScore`. -/
def referencePatterns : List String :=
  ["my request", "my complaint", "the issue", "my order", "that request",
   "this problem", "my question", "earlier request", "previous request"]

/-- `calculateReferenceScore(subchat, messageLower)`: 0.7 for any back-reference phrase
(added once), 0.3 for a repeated (truthy) timing preference; capped at 1. -/
def calculateReferenceScore (subchat : SubChat) (messageLower : String) : ℚ :=
  let refScore : ℚ :=
    if referencePatterns.any (fun p => strIncludes messageLower p) then 0.7 else 0
  let timingScore : ℚ :=
    match subchat.context.timingPreference with
    | some timing0 =>
      if timing0.isEmpty then 0
      else if strIncludes messageLower (lowerStr timing0) then 0.3 else 0
    | none => 0
  min (refScore + timingScore) 1

/-- `calculateMatchScore(subchat, messageLower, messageKeywords)`: the 0.40 / 0.35 / 0.25
weighted sum of the three sub-scores, capped at 1. -/
def calculateMatchScore (subchat : SubChat) (messageLower : String)
    (messageKeywords : List String) : ℚ :=
  let keywordOverlap := calculateKeywordOverlap messageKeywords subchat.context.relatedKeywords
  let contextScore := calculateContextScore subchat messageLower
  let referenceScore := calculateReferenceScore subchat messageLower
  min (keywordOverlap * 0.4 + contextScore * 0.35 + referenceScore * 0.25) 1

/-! ## Type alias tables (`typesMatch` in `matchingAlgorithms.ts`,
`mapIntentToSubChatType` in the message handler) -/

/-- The literal value of a `SubChatType` (TS unions are strings). -/
def SubChatType.str : SubChatType → String
  | .request => "request"
  | .complaint => "complaint"
  | .faq => "faq"
  | .general => "general"
  | .upsell => "upsell"

/-- The matcher-side alias table (`typeMap` inside `typesMatch`). -/
def relatedTypes : SubChatType → List String
  | .request => ["request", "request_item", "request_service", "room_service", "housekeeping", "maintenance"]
  | .complaint => ["complaint", "feedback_negative", "issue"]
  | .faq => ["faq", "policy_question", "information_request", "question"]
  | .general => ["general", "greeting", "small_talk", "chitchat"]
  | .upsell => ["upsell", "upgrade_request", "premium_service"]

/-- `typesMatch(subChatType, intent, specificIntentType?)`: resolve the target type with
JS `||` falsiness (an empty specific type falls back to the first intent's type; an empty
resolved type fails), then direct equality or the matcher-side alias table. -/
def typesMatch (subChatType : SubChatType) (intent : ClassifiedOutput)
    (specificIntentType : Option String) : Bool :=
  let fromIntent := (intent.intents.head?).map IntentObject.type
  let targetType :=
    match specificIntentType with
    | some s => if s.isEmpty then fromIntent else some s
    | none => fromIntent
  match targetType with
  | none => false
  | some t =>
    if t.isEmpty then false
    else if subChatType.str == t then true
    else (relatedTypes subChatType).contains t

/-- `mapIntentToSubChatType(intentType)`: the dispatcher-side switch, with `general` as the
default for every unlisted (lowercased) type. -/
def mapIntentToSubChatType (intentType : String) : SubChatType :=
  let t := lowerStr intentType
  if t ∈ ["request", "request_item", "request_service", "room_service",
          "housekeeping", "maintenance", "transportation"] then .request
  else if t ∈ ["complaint", "feedback_negative"] then .complaint
  else if t ∈ ["upsell", "upgrade_request"] then .upsell
  else if t ∈ ["faq", "policy_question", "information_request"] then .faq
  else .general

/-! ## The thread store (`SubChatManager` and `subChatUtils.ts`) -/

/-- The session map `Map<string, SubChat[]>` as an association list in insertion order. -/
abbrev SubChatStore := List (String × List SubChat)

/-- `Map.get`. -/
def storeGet (store : SubChatStore) (sessionCode : String) : Option (List SubChat) :=
  (store.find? (fun e => e.1 == sessionCode)).map (·.2)

/-- `subchats.get(sessionCode) || []`, `push`, `Map.set`: append the thread to an existing
session's list, else append a new session entry (JS `Map` keeps insertion order). -/
def storePush (store : SubChatStore) (sessionCode : String) (subchat : SubChat) : SubChatStore :=
  match store with
  | [] => [(sessionCode, [subchat])]
  | (k, ts) :: rest =>
    if k == sessionCode then (k, ts ++ [subchat]) :: rest
    else (k, ts) :: storePush rest sessionCode subchat

/-- `findSubChatById`: scan sessions in insertion order, return the first thread carrying
the id. -/
def findSubChatById (store : SubChatStore) (subchatId : String) : Option SubChat :=
  match store with
  | [] => none
  | (_, ts) :: rest =>
    match ts.find? (fun s => s.id == subchatId) with
    | some t => some t
    | none => findSubChatById rest subchatId

/-- Rewrite the first thread carrying the id in one session's list. -/
def updateThreadInList (ts : List SubChat) (subchatId : String) (f : SubChat → SubChat) :
    List SubChat :=
  match ts with
  | [] => []
  | t :: rest =>
    if t.id == subchatId then f t :: rest else t :: updateThreadInList rest subchatId f

/-- The JS in-place mutation of the object returned by `findSubChatById`: rewrite the first
thread carrying the id in the first session containing it. -/
def updateSubChatById (store : SubChatStore) (subchatId : String) (f : SubChat → SubChat) :
    SubChatStore :=
  match store with
  | [] => []
  | (k, ts) :: rest =>
    if (ts.find? (fun s => s.id == subchatId)).isSome then
      (k, updateThreadInList ts subchatId f) :: rest
    else (k, ts) :: updateSubChatById rest subchatId f

/-- The `SubChatManager` state: the session map plus the deterministic counter standing in
for `generateSubChatId` / `generateMessageId`. -/
structure ManagerState where
  subchats : SubChatStore
  nextId : Nat
deriving DecidableEq, Repr

def emptyManagerState : ManagerState := { subchats := [], nextId := 0 }

def subChatIdOf (n : Nat) : String := "subchat_" ++ toString n

def messageIdOf (n : Nat) : String := "msg_" ++ toString n

/-- The category-specific context seeding of `createSubChat` (the conditional spreads over
`intent.intents[0]?.details`; an absent item leaves the item fields `undefined`). -/
def seedContext (type : SubChatType) (intent : ClassifiedOutput) (initialMessage : String) :
    SubChatContext :=
  let base : SubChatContext :=
    { intent := intent, relatedKeywords := extractKeywords intent initialMessage,
      itemName := none, itemId := none, quantity := none, timingPreference := none,
      complaintSummary := none, department := none, faqQuery := none, faqKeywords := none,
      lastResponse := none }
  match type, (intent.intents.head?).map IntentObject.details with
  | .request, some (.requestDetails items) =>
    { base with itemName := items.head?.map (·.guessed_item_name),
                quantity := items.head?.bind (·.extracted_quantity),
                timingPreference := items.head?.bind (·.extracted_time_preference) }
  | .complaint, some (.complaintDetails summary _) =>
    { base with complaintSummary := some summary }
  | .faq, some (.faqDetails query kws) =>
    { base with faqQuery := some query, faqKeywords := some kws }
  | _, _ => base

/-- `createSubChat(sessionCode, type, intent, initialMessage)`: build the thread
(`status = 'open'`, `isActive = true`, the initial message as the first user message,
`lastUserMessage` lowercased) and push it onto the session's list. -/
def createSubChat (st : ManagerState) (now : Nat) (sessionCode : String) (type : SubChatType)
    (intent : ClassifiedOutput) (initialMessage : String) : SubChat × ManagerState :=
  let subchat : SubChat :=
    { id := subChatIdOf st.nextId, sessionCode := sessionCode, type := type,
      status := .open_, context := seedContext type intent initialMessage,
      messages := [{ id := messageIdOf st.nextId, content := initialMessage,
                     role := .user, timestamp := now }],
      createdAt := now, updatedAt := now,
      lastUserMessage := some (lowerStr initialMessage), isActive := true }
  (subchat, { subchats := storePush st.subchats sessionCode subchat, nextId := st.nextId + 1 })

/-- The per-thread mutation performed by `addMessage` once the thread is found: append the
message, refresh `updatedAt`, and refresh `lastUserMessage` (lowercased) on user turns. -/
def applyAddMessage (msgId : String) (now : Nat) (content : String) (role : MessageRole)
    (s : SubChat) : SubChat :=
  { s with
    messages := s.messages ++ [{ id := msgId, content := content, role := role, timestamp := now }],
    updatedAt := now,
    lastUserMessage := if role = .user then some (lowerStr content) else s.lastUserMessage }

/-- `addMessage(subchatId, content, role)`: a logged no-op when the id is unknown; else
apply `applyAddMessage` to the found thread. -/
def addMessage (st : ManagerState) (now : Nat) (subchatId content : String)
    (role : MessageRole) : ManagerState :=
  match findSubChatById st.subchats subchatId with
  | none => st
  | some _ =>
    { subchats := updateSubChatById st.subchats subchatId
        (applyAddMessage (messageIdOf st.nextId) now content role),
      nextId := st.nextId + 1 }

/-- `updateSubChatStatus(subchatId, status)`: a logged no-op when the id is unknown; else
set the status, refresh `updatedAt`, and force `isActive := false` on `resolved` or
`cancelled` (and only then — `isActive` is never reset to `true`). -/
def updateSubChatStatus (st : ManagerState) (now : Nat) (subchatId : String)
    (status : SubChatStatus) : ManagerState :=
  match findSubChatById st.subchats subchatId with
  | none => st
  | some _ =>
    { st with subchats := updateSubChatById st.subchats subchatId (fun s =>
        { s with status := status, updatedAt := now,
                 isActive := if status = .resolved ∨ status = .cancelled then false
                             else s.isActive }) }

/-- `Partial<SubChatContext>` for `updateSubChatContext`'s shallow merge: a present field
(outer `some`) overrides the stored one. -/
structure SubChatContextUpdate where
  intent : Option ClassifiedOutput
  relatedKeywords : Option (List String)
  itemName : Option (Option String)
  itemId : Option (Option String)
  quantity : Option (Option String)
  timingPreference : Option (Option String)
  complaintSummary : Option (Option String)
  department : Option (Option String)
  faqQuery : Option (Option String)
  faqKeywords : Option (Option (List String))
  lastResponse : Option (Option String)
deriving DecidableEq, Repr

/-- The spread `{ ...subchat.context, ...contextUpdate }`. -/
def mergeContext (c : SubChatContext) (u : SubChatContextUpdate) : SubChatContext :=
  { intent := u.intent.getD c.intent,
    relatedKeywords := u.relatedKeywords.getD c.relatedKeywords,
    itemName := u.itemName.getD c.itemName,
    itemId := u.itemId.getD c.itemId,
    quantity := u.quantity.getD c.quantity,
    timingPreference := u.timingPreference.getD c.timingPreference,
    complaintSummary := u.complaintSummary.getD c.complaintSummary,
    department := u.department.getD c.department,
    faqQuery := u.faqQuery.getD c.faqQuery,
    faqKeywords := u.faqKeywords.getD c.faqKeywords,
    lastResponse := u.lastResponse.getD c.lastResponse }

/-- `updateSubChatContext(subchatId, contextUpdate)`: a logged no-op when the id is
unknown; else shallow-merge the update and refresh `updatedAt`. -/
def updateSubChatContext (st : ManagerState) (now : Nat) (subchatId : String)
    (u : SubChatContextUpdate) : ManagerState :=
  match findSubChatById st.subchats subchatId with
  | none => st
  | some _ =>
    { st with subchats := updateSubChatById st.subchats subchatId (fun s =>
        { s with context := mergeContext s.context u, updatedAt := now }) }

/-- `getSessionSubChats`. -/
def getSessionSubChats (st : ManagerState) (sessionCode : String) : List SubChat :=
  (storeGet st.subchats sessionCode).getD []

/-- `getActiveSubChats`. -/
def getActiveSubChats (st : ManagerState) (sessionCode : String) : List SubChat :=
  (getSessionSubChats st sessionCode).filter (·.isActive)

/-- The per-thread retention test of `cleanupOldSubChats`: keep when `updatedAt` is
strictly after the cutoff `now - maxAgeHours·3600000 ms`, or when still active with
non-terminal status. -/
def keepsSubChat (now : Nat) (maxAgeHours : ℚ) (s : SubChat) : Bool :=
  decide ((s.updatedAt : ℚ) > (now : ℚ) - maxAgeHours * 3600000) ||
    (s.isActive && !decide (s.status = .resolved) && !decide (s.status = .cancelled))

/-- `cleanupOldSubChats(subchats, maxAgeHours)`: filter every session's list by the
retention test and delete a session's entry once its list becomes empty. -/
def cleanupOldSubChats (store : SubChatStore) (now : Nat) (maxAgeHours : ℚ) : SubChatStore :=
  (store.map (fun e => (e.1, e.2.filter (keepsSubChat now maxAgeHours)))).filter
    (fun e => !e.2.isEmpty)

/-- The manager's `cleanup(maxAgeHours)`. -/
def cleanup (st : ManagerState) (now : Nat) (maxAgeHours : ℚ) : ManagerState :=
  { st with subchats := cleanupOldSubChats st.subchats now maxAgeHours }

/-! ## The matcher (`findMatchingSubChat`) -/

/-- The candidate filter of `findMatchingSubChat`: active, non-terminal, alias-matching
threads. -/
def isCandidate (intent : ClassifiedOutput) (specificIntentType : Option String)
    (s : SubChat) : Bool :=
  s.isActive && !decide (s.status = .resolved) && !decide (s.status = .cancelled) &&
    typesMatch s.type intent specificIntentType

/-- The candidate pool of `findMatchingSubChat` over a session (empty when the session is
unknown). -/
def candidateSubchats (store : SubChatStore) (sessionCode : String) (intent : ClassifiedOutput)
    (specificIntentType : Option String) : List SubChat :=
  ((storeGet store sessionCode).getD []).filter (isCandidate intent specificIntentType)

/-- The `bestMatch` / `bestScore` loop of `findMatchingSubChat`: a candidate takes over
when its score strictly exceeds both the running best and the 0.3 threshold. -/
def bestLoop (score : SubChat → ℚ) : List SubChat → Option SubChat → ℚ → Option SubChat
  | [], best, _ => best
  | s :: rest, best, bestScore =>
    if score s > bestScore ∧ score s > 0.3 then bestLoop score rest (some s) (score s)
    else bestLoop score rest best bestScore

/-- The score `findMatchingSubChat` assigns to a thread: `calculateMatchScore` against the
lowercased message and its extracted keywords (which the source precomputes once before
the loop). -/
def scoreAgainst (intent : ClassifiedOutput) (message : String) (s : SubChat) : ℚ :=
  calculateMatchScore s (lowerStr message) (extractKeywords intent message)

/-- `findMatchingSubChat(sessionCode, message, intent, specificIntentType?)`: no session or
no candidates gives "no match", else the best-candidate loop runs over the filtered
session list (the source binds the filtered list and the precomputed message
keywords/lowercasing to locals; they are inlined here). -/
def findMatchingSubChat (store : SubChatStore) (sessionCode message : String)
    (intent : ClassifiedOutput) (specificIntentType : Option String) : Option SubChat :=
  match storeGet store sessionCode with
  | none => none
  | some sessionSubchats =>
    if sessionSubchats.isEmpty then none
    else if (sessionSubchats.filter (isCandidate intent specificIntentType)).isEmpty then none
    else bestLoop (scoreAgainst intent message)
      (sessionSubchats.filter (isCandidate intent specificIntentType)) none 0

/-- `processMultipleIntents(sessionCode, message, classifiedIntent)`: per intent, run the
matcher with a single-intent copy of the classification; read-only — no thread is created
or mutated here. -/
def processMultipleIntents (store : SubChatStore) (sessionCode message : String)
    (classifiedIntent : ClassifiedOutput) : List (IntentObject × Option SubChat × Bool) :=
  classifiedIntent.intents.map (fun intent =>
    let intentSpecificOutput := { classifiedIntent with intents := [intent] }
    let matchedSubChat :=
      findMatchingSubChat store sessionCode message intentSpecificOutput (some intent.type)
    (intent, matchedSubChat, matchedSubChat.isNone))

/-! ## The dispatcher (`processMessage` in the message handler, subchat-management slice) -/

/-- Result of the subchat-management slice of `processMessage`: either no primary intent
(an error reply, no store mutation), or the id of the thread handed to the flow, whether it
was newly created, and the `subChatType` that selects the note vs non-note flow. -/
inductive ProcessOutcome where
  | noPrimaryIntent
  | processed (subChatId : String) (isNewSubChat : Bool) (subChatType : SubChatType)
deriving DecidableEq, Repr

/-- Step 3 of `processMessage` plus the unconditional user `addMessage`: take the FIRST
intent entry as `primaryIntent`, map its type, run the matcher for it, create a thread on
a miss, then append the user message to the selected thread. -/
def processMessageSubchatStep (st : ManagerState) (now : Nat) (sessionCode message : String)
    (classifiedIntent : ClassifiedOutput) : ProcessOutcome × ManagerState :=
  match classifiedIntent.intents.head? with
  | none => (.noPrimaryIntent, st)
  | some primaryIntent =>
    let subChatType := mapIntentToSubChatType primaryIntent.type
    match findMatchingSubChat st.subchats sessionCode message classifiedIntent
        (some primaryIntent.type) with
    | some existingSubChat =>
      (.processed existingSubChat.id false subChatType,
       addMessage st now existingSubChat.id message .user)
    | none =>
      let (created, st1) := createSubChat st now sessionCode subChatType classifiedIntent message
      (.processed created.id true subChatType, addMessage st1 now created.id message .user)

/-! ## Derived store views and reachability -/

/-- Every thread in the store, across all sessions. -/
def allThreads (store : SubChatStore) : List SubChat := (store.map Prod.snd).flatten

/-- The thread list of one session (empty when the session is unknown). -/
def threadsOf (store : SubChatStore) (sessionCode : String) : List SubChat :=
  (storeGet store sessionCode).getD []

/-- Total number of threads across all sessions. -/
def totalThreads (store : SubChatStore) : Nat := (store.map (fun e => e.2.length)).sum

/-- States reachable from the empty manager by the store operations: thread creation,
message append, status update (also the one exposed through the outer API), context merge,
and cleanup. -/
inductive Reachable : ManagerState → Prop
  | init : Reachable emptyManagerState
  | create {st} (now : Nat) (sessionCode : String) (type : SubChatType)
      (intent : ClassifiedOutput) (initialMessage : String) :
      Reachable st → Reachable (createSubChat st now sessionCode type intent initialMessage).2
  | addMsg {st} (now : Nat) (subchatId content : String) (role : MessageRole) :
      Reachable st → Reachable (addMessage st now subchatId content role)
  | setStatus {st} (now : Nat) (subchatId : String) (status : SubChatStatus) :
      Reachable st → Reachable (updateSubChatStatus st now subchatId status)
  | mergeCtx {st} (now : Nat) (subchatId : String) (u : SubChatContextUpdate) :
      Reachable st → Reachable (updateSubChatContext st now subchatId u)
  | sweep {st} (now : Nat) (maxAgeHours : ℚ) :
      Reachable st → Reachable (cleanup st now maxAgeHours)

/-! ## Spec-side comparison definitions -/

/-- Following the spec's words for claim C2 only: the primary intent is the entry with the
highest `confidence`, ties broken by the earliest position in the classification list. -/
def specPrimaryIntent (classifiedIntent : ClassifiedOutput) : Option IntentObject :=
  classifiedIntent.intents.foldl (fun acc i =>
    match acc with
    | none => some i
    | some b => if i.confidence > b.confidence then some i else acc) none

/-! ## Concrete instantiation data (used by the closed theorems below) -/

/-- A minimal classification (no intents) for closed instantiations. -/
def sampleIntent : ClassifiedOutput :=
  { language := "en", overall_sentiment := "neutral", intents := [] }

/-- The state after one thread is created in session `s` (message `"hi"`). -/
def demoState1 : ManagerState := (createSubChat emptyManagerState 0 "s" .general sampleIntent "hi").2
/-- `demoState1` after the thread is resolved. -/
def demoState2 : ManagerState := updateSubChatStatus demoState1 0 "subchat_0" .resolved
/-- `demoState2` after the resolved thread's status is set back to a non-terminal value
through the status-update operation (the exposed API allows `awaiting_confirmation`). -/
def demoState3 : ManagerState := updateSubChatStatus demoState2 0 "subchat_0" .awaiting_confirmation
/-- The thread stored in `demoState2`. -/
def demoResolvedThread : SubChat :=
  { id := "subchat_0", sessionCode := "s", type := .general, status := .resolved,
    context := { intent := sampleIntent, relatedKeywords := [], itemName := none,
                 itemId := none, quantity := none, timingPreference := none,
                 complaintSummary := none, department := none, faqQuery := none,
                 faqKeywords := none, lastResponse := none },
    messages := [{ id := "msg_0", content := "hi", role := .user, timestamp := 0 }],
    createdAt := 0, updatedAt := 0, lastUserMessage := some "hi", isActive := false }
/-- A terminal, inactive thread last updated at time 0. -/
def staleThread : SubChat :=
  { id := "subchat_9", sessionCode := "old", type := .general, status := .resolved,
    context := { intent := sampleIntent, relatedKeywords := [], itemName := none,
                 itemId := none, quantity := none, timingPreference := none,
                 complaintSummary := none, department := none, faqQuery := none,
                 faqKeywords := none, lastResponse := none },
    messages := [], createdAt := 0, updatedAt := 0, lastUserMessage := none,
    isActive := false }
/-- A store holding only `staleThread`, in session `"old"`. -/
def staleStore : SubChatStore := [("old", [staleThread])]
/-- A single-`general`-intent classification for closed instantiations. -/
def generalIntentEntry : IntentObject :=
  { type := "general", confidence := 1, details := .emptyDetails }
/-- A classification holding only `generalIntentEntry`. -/
def ciGeneral : ClassifiedOutput :=
  { language := "en", overall_sentiment := "neutral", intents := [generalIntentEntry] }
/-- A classifier-reported towel item. -/
def towelItem : PotentialItemMentioned :=
  { guest_phrasing_for_item := "more towels", guessed_item_name := "towels",
    extracted_quantity := none, extracted_time_preference := none }
/-- A `request` intent entry mentioning `towelItem`, confidence 0.8. -/
def towelRequestEntry : IntentObject :=
  { type := "request", confidence := 0.8, details := .requestDetails [towelItem] }
/-- A `faq` intent entry about checkout time, confidence 0.6. -/
def checkoutFaqEntry : IntentObject :=
  { type := "faq", confidence := 0.6,
    details := .faqDetails "what time is checkout" ["checkout"] }
/-- A classification with two intents, `request` (first) and `faq` (second). -/
def requestFaqIntent : ClassifiedOutput :=
  { language := "en", overall_sentiment := "neutral",
    intents := [towelRequestEntry, checkoutFaqEntry] }
/-- The `request` intent entry of `lowFirstIntent`, confidence 0.9. -/
def strongRequestEntry : IntentObject :=
  { type := "request", confidence := 0.9, details := .requestDetails [towelItem] }
/-- The `faq` intent entry of `lowFirstIntent`, confidence 0.5. -/
def weakFaqEntry : IntentObject :=
  { type := "faq", confidence := 0.5,
    details := .faqDetails "what time is checkout" ["checkout"] }
/-- A classification whose FIRST intent (`faq`, confidence 0.5) is not the
highest-confidence one (`request`, confidence 0.9). -/
def lowFirstIntent : ClassifiedOutput :=
  { language := "en", overall_sentiment := "neutral",
    intents := [weakFaqEntry, strongRequestEntry] }
/-- The maximal score over a candidate list (0 for the empty list). -/
def maxScoreList (f : SubChat → ℚ) (l : List SubChat) : ℚ :=
  l.foldr (fun c m => max (f c) m) 0
/-- The earliest element of the list achieving a given score — the tie-break winner. -/
def firstWithScore (f : SubChat → ℚ) (q : ℚ) : List SubChat → Option SubChat
  | [] => none
  | c :: rest => if f c = q then some c else firstWithScore f q rest
/-- An open request thread whose stored keywords contain `towels`. -/
def towelThread : SubChat :=
  { id := "subchat_t", sessionCode := "s", type := .request, status := .open_,
    context := { intent := sampleIntent, relatedKeywords := ["towels"], itemName := none,
                 itemId := none, quantity := none, timingPreference := none,
                 complaintSummary := none, department := none, faqQuery := none,
                 faqKeywords := none, lastResponse := none },
    messages := [], createdAt := 0, updatedAt := 0,
    lastUserMessage := some "need towels", isActive := true }
/-- A store holding only `towelThread` in session `"s"`. -/
def towelStore : SubChatStore := [("s", [towelThread])]
/-! ## C10 — algebraic properties of the keyword overlap -/

/-- Claim C10: `keywordOverlap(A, A) = 1` for every nonempty keyword list `A`;
`keywordOverlap(A, B) = 0` whenever `A` or `B` is empty; and
`keywordOverlap(A, B) = keywordOverlap(B, A)` for all keyword lists. -/
theorem keywordOverlap_properties :
    (∀ A : List String, A ≠ [] → calculateKeywordOverlap A A = 1) ∧
    (∀ A B : List String, A = [] ∨ B = [] → calculateKeywordOverlap A B = 0) ∧
    (∀ A B : List String, calculateKeywordOverlap A B = calculateKeywordOverlap B A) := by
  refine ⟨?_, ?_, ?_⟩
  · intro A hA
    unfold calculateKeywordOverlap
    rw [if_neg]
    · simp only [Finset.inter_self, Finset.union_self]
      apply div_self
      have hne : ((A.map lowerStr).toFinset).Nonempty := by
        rw [List.toFinset_nonempty_iff]
        simpa using hA
      have hpos : 0 < ((A.map lowerStr).toFinset).card := Finset.card_pos.mpr hne
      exact_mod_cast Nat.pos_iff_ne_zero.mp hpos
    · rw [List.length_eq_zero, or_self]
      exact hA
  · intro A B h
    unfold calculateKeywordOverlap
    rw [if_pos]
    rcases h with h | h <;> simp [h]
  · intro A B
    unfold calculateKeywordOverlap
    by_cases h : A.length = 0 ∨ B.length = 0
    · rw [if_pos h, if_pos (Or.symm h)]
    · rw [if_neg h, if_neg (fun hc => h (Or.symm hc))]
      simp only [Finset.inter_comm, Finset.union_comm]

/-- Witness for C10 at concrete inputs. -/
theorem keywordOverlap_properties_witness :
    calculateKeywordOverlap ["towels"] ["towels"] = 1 ∧
    calculateKeywordOverlap [] ["towels"] = 0 := by
  refine ⟨keywordOverlap_properties.1 ["towels"] ?_, keywordOverlap_properties.2.1 [] ["towels"] ?_⟩
  · decide
  · exact Or.inl rfl

/-! ## C8 — unknown thread references are non-fatal no-ops -/

/-- Claim C8: for a threadId not present in the store, `addMessage` and
`updateSubChatStatus` throw nothing and leave the state (every session's thread list and
every thread's fields) unchanged. -/
theorem unknown_id_noop (st : ManagerState) (now : Nat) (subchatId content : String)
    (role : MessageRole) (status : SubChatStatus)
    (h : findSubChatById st.subchats subchatId = none) :
    addMessage st now subchatId content role = st ∧
    updateSubChatStatus st now subchatId status = st := by
  unfold addMessage updateSubChatStatus
  rw [h]
  exact ⟨rfl, rfl⟩

/-- Witness for C8 on the empty store. -/
theorem unknown_id_noop_witness :
    addMessage emptyManagerState 0 "ghost" "hello" .user = emptyManagerState ∧
    updateSubChatStatus emptyManagerState 0 "ghost" .resolved = emptyManagerState :=
  unknown_id_noop emptyManagerState 0 "ghost" "hello" .user .resolved rfl

/-! ## C4 — the two alias tables -/

/-- Claim C4 counterexample: the Matcher's filter and the Dispatcher's mapping do NOT use
the same alias table — `transportation` maps to `request` in the dispatcher's
`mapIntentToSubChatType` but fails the matcher's `typesMatch` for a `request` thread. -/
theorem alias_tables_disagree_counterexample :
    typesMatch .request sampleIntent (some "transportation") = false ∧
    mapIntentToSubChatType "transportation" = .request := by
  decide

/-- Claim C4 amended: the two components use different fixed tables.  The matcher-side
`typesMatch` accepts `question` for `faq`, `premium_service` for `upsell` and `issue` for
`complaint` but not `transportation` for `request`, and matches an unrecognized type to no
category at all; the dispatcher-side `mapIntentToSubChatType` accepts `transportation` for
`request` but sends `question`, `premium_service`, `issue` and every other unlisted type to
the `general` default. -/
theorem alias_tables_amended :
    typesMatch .request sampleIntent (some "transportation") = false ∧
    mapIntentToSubChatType "transportation" = .request ∧
    typesMatch .faq sampleIntent (some "question") = true ∧
    mapIntentToSubChatType "question" = .general ∧
    typesMatch .upsell sampleIntent (some "premium_service") = true ∧
    mapIntentToSubChatType "premium_service" = .general ∧
    typesMatch .complaint sampleIntent (some "issue") = true ∧
    mapIntentToSubChatType "issue" = .general ∧
    (∀ ty : SubChatType, typesMatch ty sampleIntent (some "charter_bus") = false) ∧
    mapIntentToSubChatType "charter_bus" = .general := by
  refine ⟨by decide, by decide, by decide, by decide, by decide, by decide, by decide,
    by decide, ?_, by decide⟩
  intro ty
  cases ty <;> decide

/-! ## Store membership lemmas -/

lemma allThreads_cons (k : String) (ts : List SubChat) (rest : SubChatStore) :
    allThreads ((k, ts) :: rest) = ts ++ allThreads rest := rfl

lemma allThreads_mem_iff {store : SubChatStore} {t : SubChat} :
    t ∈ allThreads store ↔ ∃ e, e ∈ store ∧ t ∈ e.2 := by
  simp only [allThreads, List.mem_flatten, List.mem_map]
  constructor
  · rintro ⟨l, ⟨e, he, rfl⟩, htl⟩
    exact ⟨e, he, htl⟩
  · rintro ⟨e, he, hte⟩
    exact ⟨e.2, ⟨e, he, rfl⟩, hte⟩

lemma mem_storePush {store : SubChatStore} {sc : String} {sub t : SubChat}
    (h : t ∈ allThreads (storePush store sc sub)) : t = sub ∨ t ∈ allThreads store := by
  induction store with
  | nil =>
    rw [storePush, allThreads_cons] at h
    simpa [allThreads] using h
  | cons e rest ih =>
    obtain ⟨k, ts⟩ := e
    rw [storePush] at h
    by_cases hk : (k == sc) = true
    · rw [if_pos hk, allThreads_cons] at h
      rw [allThreads_cons]
      rcases List.mem_append.mp h with h1 | h2
      · rcases List.mem_append.mp h1 with h3 | h4
        · exact Or.inr (List.mem_append.mpr (Or.inl h3))
        · simp only [List.mem_singleton] at h4
          exact Or.inl h4
      · exact Or.inr (List.mem_append.mpr (Or.inr h2))
    · rw [if_neg hk, allThreads_cons] at h
      rw [allThreads_cons]
      rcases List.mem_append.mp h with h1 | h2
      · exact Or.inr (List.mem_append.mpr (Or.inl h1))
      · rcases ih h2 with h3 | h4
        · exact Or.inl h3
        · exact Or.inr (List.mem_append.mpr (Or.inr h4))

lemma mem_updateThreadInList {ts : List SubChat} {i : String} {f : SubChat → SubChat} {t : SubChat}
    (h : t ∈ updateThreadInList ts i f) : t ∈ ts ∨ ∃ u ∈ ts, t = f u := by
  induction ts with
  | nil => simp [updateThreadInList] at h
  | cons t0 rest ih =>
    rw [updateThreadInList] at h
    by_cases h0 : (t0.id == i) = true
    · rw [if_pos h0] at h
      rcases List.mem_cons.mp h with rfl | hr
      · exact Or.inr ⟨t0, List.mem_cons_self _ _, rfl⟩
      · exact Or.inl (List.mem_cons_of_mem _ hr)
    · rw [if_neg h0] at h
      rcases List.mem_cons.mp h with rfl | hr
      · exact Or.inl (List.mem_cons_self _ _)
      · rcases ih hr with h1 | ⟨u, hu, rfl⟩
        · exact Or.inl (List.mem_cons_of_mem _ h1)
        · exact Or.inr ⟨u, List.mem_cons_of_mem _ hu, rfl⟩

lemma mem_updateSubChatById {store : SubChatStore} {i : String} {f : SubChat → SubChat}
    {t : SubChat} (h : t ∈ allThreads (updateSubChatById store i f)) :
    t ∈ allThreads store ∨ ∃ u ∈ allThreads store, t = f u := by
  induction store with
  | nil => simp [updateSubChatById, allThreads] at h
  | cons e rest ih =>
    obtain ⟨k, ts⟩ := e
    rw [updateSubChatById] at h
    rw [allThreads_cons]
    by_cases hfind : (ts.find? (fun s => s.id == i)).isSome = true
    · rw [if_pos hfind, allThreads_cons] at h
      rcases List.mem_append.mp h with h1 | h2
      · rcases mem_updateThreadInList h1 with h3 | ⟨u, hu, rfl⟩
        · exact Or.inl (List.mem_append.mpr (Or.inl h3))
        · exact Or.inr ⟨u, List.mem_append.mpr (Or.inl hu), rfl⟩
      · exact Or.inl (List.mem_append.mpr (Or.inr h2))
    · rw [if_neg hfind, allThreads_cons] at h
      rcases List.mem_append.mp h with h1 | h2
      · exact Or.inl (List.mem_append.mpr (Or.inl h1))
      · rcases ih h2 with h3 | ⟨u, hu, rfl⟩
        · exact Or.inl (List.mem_append.mpr (Or.inr h3))
        · exact Or.inr ⟨u, List.mem_append.mpr (Or.inr hu), rfl⟩

lemma mem_cleanup {store : SubChatStore} {now : Nat} {m : ℚ} {t : SubChat}
    (h : t ∈ allThreads (cleanupOldSubChats store now m)) : t ∈ allThreads store := by
  rcases allThreads_mem_iff.mp h with ⟨e, he, hte⟩
  rw [cleanupOldSubChats] at he
  rcases List.mem_filter.mp he with ⟨he2, _⟩
  rcases List.mem_map.mp he2 with ⟨e0, he0, rfl⟩
  exact allThreads_mem_iff.mpr ⟨e0, he0, List.mem_of_mem_filter hte⟩

/-! ## C5 — status and activity flag -/

/-- Claim C5 counterexample: a reachable sequence of store operations (create, resolve,
then set status `awaiting_confirmation` — a transition the exposed status-update API
accepts) produces a thread with `isActive = false` and non-terminal status, so
`isActive == false ↔ status ∈ {resolved, cancelled}` fails. -/
theorem status_activity_disagree_counterexample :
    Reachable demoState3 ∧
    (findSubChatById demoState3.subchats "subchat_0").map SubChat.isActive = some false ∧
    (findSubChatById demoState3.subchats "subchat_0").map SubChat.status =
      some .awaiting_confirmation ∧
    SubChatStatus.awaiting_confirmation ≠ .resolved ∧
    SubChatStatus.awaiting_confirmation ≠ .cancelled := by
  refine ⟨?_, by decide, by decide, by decide, by decide⟩
  exact Reachable.setStatus 0 "subchat_0" .awaiting_confirmation
    (Reachable.setStatus 0 "subchat_0" .resolved
      (Reachable.create 0 "s" .general sampleIntent "hi" Reachable.init))

/-- Claim C5 amended: over every sequence of store operations only the forward direction
holds — a thread whose status is `resolved` or `cancelled` always has `isActive = false`.
The converse fails (see the counterexample): setting a terminal thread's status back to a
non-terminal value leaves `isActive = false`, because `updateSubChatStatus` never resets
the flag to `true`. -/
theorem terminal_status_implies_inactive {st : ManagerState} (h : Reachable st) :
    ∀ t ∈ allThreads st.subchats,
      (t.status = .resolved ∨ t.status = .cancelled) → t.isActive = false := by
  induction h with
  | init =>
    intro t ht _
    simp [emptyManagerState, allThreads] at ht
  | create now sc ty intent msg _ ih =>
    intro t ht hterm
    rcases mem_storePush ht with rfl | hmem
    · rcases hterm with h1 | h1
      · exact absurd (show SubChatStatus.open_ = SubChatStatus.resolved from h1) (by decide)
      · exact absurd (show SubChatStatus.open_ = SubChatStatus.cancelled from h1) (by decide)
    · exact ih t hmem hterm
  | addMsg now i content role _ ih =>
    rename_i st0 _
    intro t ht hterm
    cases hfind : findSubChatById st0.subchats i with
    | none =>
      unfold addMessage at ht
      rw [hfind] at ht
      exact ih t ht hterm
    | some u =>
      unfold addMessage at ht
      rw [hfind] at ht
      rcases mem_updateSubChatById ht with hmem | ⟨u2, hu2, rfl⟩
      · exact ih t hmem hterm
      · exact ih u2 hu2 hterm
  | setStatus now i status _ ih =>
    rename_i st0 _
    intro t ht hterm
    cases hfind : findSubChatById st0.subchats i with
    | none =>
      unfold updateSubChatStatus at ht
      rw [hfind] at ht
      exact ih t ht hterm
    | some u =>
      unfold updateSubChatStatus at ht
      rw [hfind] at ht
      rcases mem_updateSubChatById ht with hmem | ⟨u2, hu2, rfl⟩
      · exact ih t hmem hterm
      · rcases hterm with h1 | h1
        · have h2 : status = SubChatStatus.resolved := h1
          show (if status = SubChatStatus.resolved ∨ status = SubChatStatus.cancelled then false
                else u2.isActive) = false
          rw [if_pos (Or.inl h2)]
        · have h2 : status = SubChatStatus.cancelled := h1
          show (if status = SubChatStatus.resolved ∨ status = SubChatStatus.cancelled then false
                else u2.isActive) = false
          rw [if_pos (Or.inr h2)]
  | mergeCtx now i u _ ih =>
    rename_i st0 _
    intro t ht hterm
    cases hfind : findSubChatById st0.subchats i with
    | none =>
      unfold updateSubChatContext at ht
      rw [hfind] at ht
      exact ih t ht hterm
    | some w =>
      unfold updateSubChatContext at ht
      rw [hfind] at ht
      rcases mem_updateSubChatById ht with hmem | ⟨u2, hu2, rfl⟩
      · exact ih t hmem hterm
      · exact ih u2 hu2 hterm
  | sweep now m _ ih =>
    intro t ht hterm
    exact ih t (mem_cleanup ht) hterm

/-- Witness for C5 (amended) at the concrete resolved thread of `demoState2`. -/
theorem terminal_status_implies_inactive_witness : demoResolvedThread.isActive = false :=
  terminal_status_implies_inactive
    (show Reachable demoState2 from
      Reachable.setStatus 0 "subchat_0" .resolved
        (Reachable.create 0 "s" .general sampleIntent "hi" Reachable.init))
    demoResolvedThread (by decide) (Or.inl rfl)

/-! ## C7 — eviction -/

lemma storeGet_cons (k : String) (ts : List SubChat) (rest : SubChatStore) (sc : String) :
    storeGet ((k, ts) :: rest) sc = if k == sc then some ts else storeGet rest sc := by
  cases hkc : (k == sc) with
  | true => simp [storeGet, List.find?, hkc]
  | false => simp [storeGet, List.find?, hkc]

lemma storeGet_eq_none_iff {store : SubChatStore} {sc : String} :
    storeGet store sc = none ↔ ∀ e ∈ store, e.1 ≠ sc := by
  simp [storeGet, Option.map_eq_none', List.find?_eq_none]

lemma storeGet_cleanup_none {store : SubChatStore} {now : Nat} {m : ℚ} {sc : String}
    (h : storeGet store sc = none) :
    storeGet (cleanupOldSubChats store now m) sc = none := by
  rw [storeGet_eq_none_iff] at h ⊢
  intro e he
  rcases List.mem_filter.mp he with ⟨he2, _⟩
  rcases List.mem_map.mp he2 with ⟨e0, he0, rfl⟩
  exact h e0 he0

/-- The session-level effect of `cleanupOldSubChats` (for stores with unique session
keys): the session's list is filtered by the retention test, and the entry disappears
when the filtered list is empty. -/
lemma cleanup_storeGet (store : SubChatStore) (now : Nat) (m : ℚ) (sc : String)
    (hnd : (store.map Prod.fst).Nodup) :
    storeGet (cleanupOldSubChats store now m) sc =
      (storeGet store sc).bind (fun ts =>
        if (ts.filter (keepsSubChat now m)).isEmpty then none
        else some (ts.filter (keepsSubChat now m))) := by
  induction store with
  | nil => rfl
  | cons e rest ih =>
    obtain ⟨k, ts⟩ := e
    rw [List.map_cons, List.nodup_cons] at hnd
    obtain ⟨hknotin, hndrest⟩ := hnd
    rw [cleanupOldSubChats, List.map_cons, List.filter_cons]
    have hrest : ((rest.map (fun e => (e.1, e.2.filter (keepsSubChat now m)))).filter
        (fun e => !e.2.isEmpty)) = cleanupOldSubChats rest now m := rfl
    by_cases hk : (k == sc) = true
    · have hksc : k = sc := by simpa using hk
      rw [storeGet_cons, if_pos hk, Option.some_bind]
      by_cases hemp : ((ts.filter (keepsSubChat now m)).isEmpty) = true
      · have hnotf : (!(ts.filter (keepsSubChat now m)).isEmpty) = false := by
          rw [hemp]; rfl
        rw [hnotf, if_neg (by simp), hrest, if_pos hemp]
        apply storeGet_cleanup_none
        rw [storeGet_eq_none_iff]
        intro e2 he2 hcontra
        apply hknotin
        show k ∈ List.map Prod.fst rest
        rw [hksc, ← hcontra]
        exact List.mem_map.mpr ⟨e2, he2, rfl⟩
      · have hfalse : ((ts.filter (keepsSubChat now m)).isEmpty) = false := by
          cases h2 : ((ts.filter (keepsSubChat now m)).isEmpty) with
          | true => exact absurd h2 hemp
          | false => rfl
        have hnott : (!(ts.filter (keepsSubChat now m)).isEmpty) = true := by
          rw [hfalse]; rfl
        rw [if_pos hnott, hrest, storeGet_cons, if_pos hk, if_neg hemp]
    · rw [storeGet_cons, if_neg hk]
      by_cases hemp : ((ts.filter (keepsSubChat now m)).isEmpty) = true
      · have hnotf : (!(ts.filter (keepsSubChat now m)).isEmpty) = false := by
          rw [hemp]; rfl
        rw [hnotf, if_neg (by simp), hrest]
        exact ih hndrest
      · have hfalse : ((ts.filter (keepsSubChat now m)).isEmpty) = false := by
          cases h2 : ((ts.filter (keepsSubChat now m)).isEmpty) with
          | true => exact absurd h2 hemp
          | false => rfl
        have hnott : (!(ts.filter (keepsSubChat now m)).isEmpty) = true := by
          rw [hfalse]; rfl
        rw [if_pos hnott, hrest, storeGet_cons, if_neg hk]
        exact ih hndrest

/-- The retention test, spelled out as a proposition. -/
lemma keepsSubChat_iff {now : Nat} {m : ℚ} {t : SubChat} :
    keepsSubChat now m t = true ↔
      ((now : ℚ) - t.updatedAt < m * 3600000 ∨
       (t.isActive = true ∧ t.status ≠ .resolved ∧ t.status ≠ .cancelled)) := by
  unfold keepsSubChat
  simp only [Bool.or_eq_true, Bool.and_eq_true, Bool.not_eq_true', decide_eq_false_iff_not,
    decide_eq_true_eq]
  constructor
  · rintro (h | ⟨⟨h1, h2⟩, h3⟩)
    · exact Or.inl (by linarith)
    · exact Or.inr ⟨h1, h2, h3⟩
  · rintro (h | ⟨h1, h2, h3⟩)
    · exact Or.inl (by linarith)
    · exact Or.inr ⟨⟨h1, h2⟩, h3⟩

/-- Claim C7 amended: for stores with unique session keys, `evict(maxAgeHours)` retains a
thread iff `(now - updatedAt) < maxAgeHours` (STRICTLY — the source compares
`updatedAt > cutoffTime`, so a thread exactly at the cutoff age is not retained by the age
test, where the claim said `≤`) or the thread is active with non-terminal status; the
session entry survives iff some thread of the session passes that test. -/
theorem cleanupOldSubChats_retention (store : SubChatStore) (now : Nat) (maxAgeHours : ℚ)
    (sc : String) (hnd : (store.map Prod.fst).Nodup) :
    (∀ t, t ∈ threadsOf (cleanupOldSubChats store now maxAgeHours) sc ↔
       (t ∈ threadsOf store sc ∧
         ((now : ℚ) - t.updatedAt < maxAgeHours * 3600000 ∨
          (t.isActive = true ∧ t.status ≠ .resolved ∧ t.status ≠ .cancelled)))) ∧
    ((storeGet (cleanupOldSubChats store now maxAgeHours) sc).isSome = true ↔
       ∃ t ∈ threadsOf store sc,
         ((now : ℚ) - t.updatedAt < maxAgeHours * 3600000 ∨
          (t.isActive = true ∧ t.status ≠ .resolved ∧ t.status ≠ .cancelled))) := by
  have heq := cleanup_storeGet store now maxAgeHours sc hnd
  constructor
  · intro t
    rw [threadsOf, heq, threadsOf]
    cases hget : storeGet store sc with
    | none => simp
    | some ts =>
      simp only [Option.some_bind, Option.getD_some]
      by_cases hemp : ((ts.filter (keepsSubChat now maxAgeHours)).isEmpty) = true
      · rw [if_pos hemp]
        simp only [Option.getD_none, List.not_mem_nil, false_iff]
        rintro ⟨hmem, hkeep⟩
        have hin : t ∈ ts.filter (keepsSubChat now maxAgeHours) :=
          List.mem_filter.mpr ⟨hmem, keepsSubChat_iff.mpr hkeep⟩
        rw [List.isEmpty_iff] at hemp
        rw [hemp] at hin
        exact absurd hin (List.not_mem_nil t)
      · rw [if_neg hemp]
        simp only [Option.getD_some]
        rw [List.mem_filter]
        constructor
        · rintro ⟨h1, h2⟩
          exact ⟨h1, keepsSubChat_iff.mp h2⟩
        · rintro ⟨h1, h2⟩
          exact ⟨h1, keepsSubChat_iff.mpr h2⟩
  · rw [heq]
    cases hget : storeGet store sc with
    | none => simp [threadsOf, hget]
    | some ts =>
      simp only [threadsOf, hget, Option.some_bind, Option.getD_some]
      by_cases hemp : ((ts.filter (keepsSubChat now maxAgeHours)).isEmpty) = true
      · rw [if_pos hemp]
        simp only [Option.isSome_none, Bool.false_eq_true, false_iff]
        rintro ⟨t, hmem, hkeep⟩
        have hin : t ∈ ts.filter (keepsSubChat now maxAgeHours) :=
          List.mem_filter.mpr ⟨hmem, keepsSubChat_iff.mpr hkeep⟩
        rw [List.isEmpty_iff] at hemp
        rw [hemp] at hin
        exact absurd hin (List.not_mem_nil t)
      · rw [if_neg hemp]
        simp only [Option.isSome_some, true_iff]
        rw [Bool.not_eq_true] at hemp
        have hne : ts.filter (keepsSubChat now maxAgeHours) ≠ [] := by
          intro hc
          rw [← List.isEmpty_iff] at hc
          exact absurd hc (by rw [hemp]; simp)
        rcases List.exists_mem_of_ne_nil _ hne with ⟨t, ht⟩
        rcases List.mem_filter.mp ht with ⟨h1, h2⟩
        exact ⟨t, h1, keepsSubChat_iff.mp h2⟩

/-- Claim C7 counterexample: with `maxAgeHours = 1` and `now` exactly one hour after
`updatedAt`, the claim's retention condition `(now - updatedAt) ≤ maxAgeHours` holds, yet
the code (whose age test is strict: `updatedAt > cutoffTime`) drops the terminal thread
and deletes the session entry. -/
theorem cleanup_boundary_counterexample :
    ((3600000 : ℚ) - (staleThread.updatedAt : ℚ) ≤ 1 * 3600000) ∧
    storeGet (cleanupOldSubChats staleStore 3600000 1) "old" = none := by
  constructor
  · decide
  · decide

/-- Witness for C7 (amended): one hour of age against a four-hour horizon retains the
thread and the session. -/
theorem cleanupOldSubChats_retention_witness :
    staleThread ∈ threadsOf (cleanupOldSubChats staleStore 7200000 4) "old" :=
  ((cleanupOldSubChats_retention staleStore 7200000 4 "old" (by decide)).1 staleThread).mpr
    ⟨by decide, Or.inl (by decide)⟩

/-! ## Lemmas about id lookup after creation and update -/

lemma findSubChatById_storePush {store : SubChatStore} {sc : String} {sub : SubChat}
    (h : findSubChatById store sub.id = none) :
    findSubChatById (storePush store sc sub) sub.id = some sub := by
  induction store with
  | nil => simp [storePush, findSubChatById, List.find?]
  | cons e rest ih =>
    obtain ⟨k, ts⟩ := e
    rw [findSubChatById] at h
    cases hf : ts.find? (fun s => s.id == sub.id) with
    | some u => rw [hf] at h; simp at h
    | none =>
      rw [hf] at h
      rw [storePush]
      by_cases hk : (k == sc) = true
      · rw [if_pos hk, findSubChatById]
        have happ : (ts ++ [sub]).find? (fun s => s.id == sub.id) = some sub := by
          rw [List.find?_append, hf, Option.none_or]
          simp [List.find?]
        rw [happ]
      · rw [if_neg hk, findSubChatById, hf]
        exact ih h

lemma find?_updateThreadInList {ts : List SubChat} {i : String} {f : SubChat → SubChat}
    (hid : ∀ s, (f s).id = s.id) :
    (updateThreadInList ts i f).find? (fun s => s.id == i) =
      (ts.find? (fun s => s.id == i)).map f := by
  induction ts with
  | nil => rfl
  | cons t rest ih =>
    rw [updateThreadInList]
    cases h0 : (t.id == i) with
    | true => simp [List.find?, hid, h0]
    | false =>
      simp only [h0, Bool.false_eq_true, if_false]
      simp [List.find?, h0]
      exact ih

lemma findSubChatById_update {store : SubChatStore} {i : String} {f : SubChat → SubChat}
    (hid : ∀ s, (f s).id = s.id) :
    findSubChatById (updateSubChatById store i f) i = (findSubChatById store i).map f := by
  induction store with
  | nil => rfl
  | cons e rest ih =>
    obtain ⟨k, ts⟩ := e
    rw [updateSubChatById]
    by_cases hf : (ts.find? (fun s => s.id == i)).isSome = true
    · rw [if_pos hf, findSubChatById, findSubChatById, find?_updateThreadInList hid]
      obtain ⟨u, hu⟩ := Option.isSome_iff_exists.mp hf
      rw [hu]
      rfl
    · rw [if_neg hf, findSubChatById, findSubChatById]
      cases hfe : ts.find? (fun s => s.id == i) with
      | some u => rw [hfe] at hf; simp at hf
      | none => exact ih

lemma totalThreads_cons (k : String) (ts : List SubChat) (rest : SubChatStore) :
    totalThreads ((k, ts) :: rest) = ts.length + totalThreads rest := rfl

lemma length_updateThreadInList (ts : List SubChat) (i : String) (f : SubChat → SubChat) :
    (updateThreadInList ts i f).length = ts.length := by
  induction ts with
  | nil => rfl
  | cons t rest ih =>
    rw [updateThreadInList]
    by_cases h0 : (t.id == i) = true
    · rw [if_pos h0]
      simp
    · rw [if_neg h0]
      simp [ih]

lemma totalThreads_update (store : SubChatStore) (i : String) (f : SubChat → SubChat) :
    totalThreads (updateSubChatById store i f) = totalThreads store := by
  induction store with
  | nil => rfl
  | cons e rest ih =>
    obtain ⟨k, ts⟩ := e
    rw [updateSubChatById]
    by_cases hf : (ts.find? (fun s => s.id == i)).isSome = true
    · rw [if_pos hf, totalThreads_cons, totalThreads_cons, length_updateThreadInList]
    · rw [if_neg hf, totalThreads_cons, totalThreads_cons, ih]

lemma totalThreads_storePush (store : SubChatStore) (sc : String) (sub : SubChat) :
    totalThreads (storePush store sc sub) = totalThreads store + 1 := by
  induction store with
  | nil => rfl
  | cons e rest ih =>
    obtain ⟨k, ts⟩ := e
    rw [storePush]
    by_cases hk : (k == sc) = true
    · rw [if_pos hk, totalThreads_cons, totalThreads_cons]
      simp [List.length_append]
      omega
    · rw [if_neg hk, totalThreads_cons, totalThreads_cons, ih]
      omega

/-- The value of the dispatcher step when the matcher misses for the first intent. -/
lemma processMessageSubchatStep_miss (st : ManagerState) (now : Nat)
    (sessionCode message : String) (ci : ClassifiedOutput) (p : IntentObject)
    (rest : List IntentObject) (hp : ci.intents = p :: rest)
    (hmiss : findMatchingSubChat st.subchats sessionCode message ci (some p.type) = none) :
    processMessageSubchatStep st now sessionCode message ci =
      (.processed (subChatIdOf st.nextId) true (mapIntentToSubChatType p.type),
       addMessage
         (createSubChat st now sessionCode (mapIntentToSubChatType p.type) ci message).2
         now (subChatIdOf st.nextId) message .user) := by
  unfold processMessageSubchatStep
  rw [hp]
  simp only [List.head?_cons, hmiss]
  rfl

/-- The value of the dispatcher step when the matcher hits for the first intent. -/
lemma processMessageSubchatStep_hit (st : ManagerState) (now : Nat)
    (sessionCode message : String) (ci : ClassifiedOutput) (p : IntentObject)
    (rest : List IntentObject) (m : SubChat) (hp : ci.intents = p :: rest)
    (hhit : findMatchingSubChat st.subchats sessionCode message ci (some p.type) = some m) :
    processMessageSubchatStep st now sessionCode message ci =
      (.processed m.id false (mapIntentToSubChatType p.type),
       addMessage st now m.id message .user) := by
  unfold processMessageSubchatStep
  rw [hp]
  simp only [List.head?_cons, hhit]

/-- The store after `addMessage` finds the thread. -/
lemma addMessage_found_subchats (st : ManagerState) (now : Nat) (subchatId content : String)
    (role : MessageRole) (u : SubChat) (h : findSubChatById st.subchats subchatId = some u) :
    (addMessage st now subchatId content role).subchats =
      updateSubChatById st.subchats subchatId
        (applyAddMessage (messageIdOf st.nextId) now content role) := by
  unfold addMessage
  rw [h]

/-- Looking up the appended-to thread after `addMessage`. -/
lemma findSubChatById_addMessage (st : ManagerState) (now : Nat) (subchatId content : String)
    (role : MessageRole) (u : SubChat) (h : findSubChatById st.subchats subchatId = some u) :
    findSubChatById (addMessage st now subchatId content role).subchats subchatId =
      some (applyAddMessage (messageIdOf st.nextId) now content role u) := by
  rw [addMessage_found_subchats st now subchatId content role u h]
  rw [@findSubChatById_update st.subchats subchatId
    (applyAddMessage (messageIdOf st.nextId) now content role) (fun s => rfl), h]
  rfl

/-! ## C6 — duplicated initial user message on thread creation -/

/-- Claim C6: when `processMessage` handles a message that matches no existing thread, the
new thread's message list holds the incoming message TWICE as user messages — once
appended by `createSubChat` as the initial message and once by the unconditional
`addMessage` call that follows thread selection.  (`hfresh` states that the generated id
is fresh, which the source's id generator provides.) -/
theorem new_thread_double_user_message (st : ManagerState) (now : Nat)
    (sessionCode message : String) (ci : ClassifiedOutput) (p : IntentObject)
    (rest : List IntentObject) (hp : ci.intents = p :: rest)
    (hmiss : findMatchingSubChat st.subchats sessionCode message ci (some p.type) = none)
    (hfresh : findSubChatById st.subchats (subChatIdOf st.nextId) = none) :
    ∃ t, findSubChatById
        (processMessageSubchatStep st now sessionCode message ci).2.subchats
        (subChatIdOf st.nextId) = some t ∧
      t.messages.map SubChatMessage.content = [message, message] ∧
      t.messages.map SubChatMessage.role = [.user, .user] := by
  rw [processMessageSubchatStep_miss st now sessionCode message ci p rest hp hmiss]
  have hpush : findSubChatById
      (createSubChat st now sessionCode (mapIntentToSubChatType p.type) ci message).2.subchats
      (subChatIdOf st.nextId) =
      some (createSubChat st now sessionCode (mapIntentToSubChatType p.type) ci message).1 :=
    @findSubChatById_storePush st.subchats sessionCode
      (createSubChat st now sessionCode (mapIntentToSubChatType p.type) ci message).1 hfresh
  rw [findSubChatById_addMessage _ _ _ _ _ _ hpush]
  exact ⟨_, rfl, rfl, rfl⟩

/-- Witness for C6: a fresh session, one `general` intent, message `"hello"`. -/
theorem new_thread_double_user_message_witness :
    ∃ t, findSubChatById
        (processMessageSubchatStep emptyManagerState 0 "s" "hello" ciGeneral).2.subchats
        (subChatIdOf 0) = some t ∧
      t.messages.map SubChatMessage.content = ["hello", "hello"] ∧
      t.messages.map SubChatMessage.role = [.user, .user] :=
  new_thread_double_user_message emptyManagerState 0 "s" "hello" ciGeneral
    generalIntentEntry [] rfl rfl rfl

/-! ## C1 — one thread per message, not one per intent -/

/-- Claim C1 counterexample: one message classified into the two intents `request` and
`faq` leaves ONE thread in the session — created for the first (`request`) intent — not
two distinct threads; in particular no `faq` thread exists. -/
theorem two_intents_one_thread_counterexample :
    (threadsOf (processMessageSubchatStep emptyManagerState 0 "s"
        "towels and checkout" requestFaqIntent).2.subchats "s").map SubChat.type =
      [SubChatType.request] := by
  decide

/-- Claim C1 amended: the Dispatcher (`processMessage`) does not fan out over the intent
list — it runs the Matcher and, on a miss, creates a thread only for the FIRST intent
entry, so a multi-intent message adds exactly one thread, whose category is mapped from
the first intent's type, whatever the remaining intents are.  (`processMultipleIntents`
runs the Matcher once per intent but creates no threads and is not called by
`processMessage`.) -/
theorem processMessage_single_thread_for_first_intent (st : ManagerState) (now : Nat)
    (sessionCode message : String) (ci : ClassifiedOutput) (p : IntentObject)
    (rest : List IntentObject) (hp : ci.intents = p :: rest)
    (hmiss : findMatchingSubChat st.subchats sessionCode message ci (some p.type) = none)
    (hfresh : findSubChatById st.subchats (subChatIdOf st.nextId) = none) :
    totalThreads (processMessageSubchatStep st now sessionCode message ci).2.subchats =
      totalThreads st.subchats + 1 ∧
    ∃ t, findSubChatById
        (processMessageSubchatStep st now sessionCode message ci).2.subchats
        (subChatIdOf st.nextId) = some t ∧ t.type = mapIntentToSubChatType p.type := by
  rw [processMessageSubchatStep_miss st now sessionCode message ci p rest hp hmiss]
  have hpush : findSubChatById
      (createSubChat st now sessionCode (mapIntentToSubChatType p.type) ci message).2.subchats
      (subChatIdOf st.nextId) =
      some (createSubChat st now sessionCode (mapIntentToSubChatType p.type) ci message).1 :=
    @findSubChatById_storePush st.subchats sessionCode
      (createSubChat st now sessionCode (mapIntentToSubChatType p.type) ci message).1 hfresh
  constructor
  · rw [addMessage_found_subchats _ _ _ _ _ _ hpush, totalThreads_update]
    exact totalThreads_storePush st.subchats sessionCode
      (createSubChat st now sessionCode (mapIntentToSubChatType p.type) ci message).1
  · rw [findSubChatById_addMessage _ _ _ _ _ _ hpush]
    exact ⟨_, rfl, rfl⟩

/-- Witness for C1 (amended): the two-intent classification of the counterexample adds
exactly one thread, of category `request`, to the empty store. -/
theorem processMessage_single_thread_for_first_intent_witness :
    totalThreads (processMessageSubchatStep emptyManagerState 0 "s"
        "towels and checkout" requestFaqIntent).2.subchats =
      totalThreads emptyManagerState.subchats + 1 ∧
    ∃ t, findSubChatById
        (processMessageSubchatStep emptyManagerState 0 "s"
          "towels and checkout" requestFaqIntent).2.subchats
        (subChatIdOf 0) = some t ∧ t.type = mapIntentToSubChatType "request" :=
  processMessage_single_thread_for_first_intent emptyManagerState 0 "s"
    "towels and checkout" requestFaqIntent towelRequestEntry [checkoutFaqEntry] rfl rfl rfl

/-! ## C2 — which intent owns the primary thread -/

/-- Claim C2 counterexample: with intents `[faq @ 0.5, request @ 0.9]` the dispatcher
hands the reply-producing flow a `faq` thread (the FIRST list entry), although the
highest-confidence intent is the `request` one, whose category differs. -/
theorem primary_not_highest_confidence_counterexample :
    (processMessageSubchatStep emptyManagerState 0 "s" "hello there" lowFirstIntent).1 =
      .processed (subChatIdOf 0) true .faq ∧
    specPrimaryIntent lowFirstIntent = some strongRequestEntry ∧
    mapIntentToSubChatType strongRequestEntry.type = .request ∧
    SubChatType.faq ≠ .request := by
  refine ⟨by decide, by decide, by decide, by decide⟩

/-- Claim C2 amended: the primary thread — the one whose reply-producing flow is invoked —
is the thread attached to the FIRST intent entry of the classification list, irrespective
of the confidence values. -/
theorem processMessage_primary_is_first_intent (st : ManagerState) (now : Nat)
    (sessionCode message : String) (ci : ClassifiedOutput) (p : IntentObject)
    (rest : List IntentObject) (hp : ci.intents = p :: rest) :
    ∃ subChatId isNew,
      (processMessageSubchatStep st now sessionCode message ci).1 =
        .processed subChatId isNew (mapIntentToSubChatType p.type) := by
  cases hm : findMatchingSubChat st.subchats sessionCode message ci (some p.type) with
  | some m =>
    rw [processMessageSubchatStep_hit st now sessionCode message ci p rest m hp hm]
    exact ⟨m.id, false, rfl⟩
  | none =>
    rw [processMessageSubchatStep_miss st now sessionCode message ci p rest hp hm]
    exact ⟨subChatIdOf st.nextId, true, rfl⟩

/-- Witness for C2 (amended) on a fresh session with a single `general` intent. -/
theorem processMessage_primary_is_first_intent_witness :
    ∃ subChatId isNew,
      (processMessageSubchatStep emptyManagerState 0 "s" "hello" ciGeneral).1 =
        .processed subChatId isNew (mapIntentToSubChatType "general") :=
  processMessage_primary_is_first_intent emptyManagerState 0 "s" "hello" ciGeneral
    generalIntentEntry [] rfl

/-! ## C3 / C9 — the selection policy of the matcher -/

lemma mem_le_maxScoreList {f : SubChat → ℚ} {l : List SubChat} {c : SubChat} (h : c ∈ l) :
    f c ≤ maxScoreList f l := by
  induction l with
  | nil => cases h
  | cons a t ih =>
    rcases List.mem_cons.mp h with rfl | h2
    · exact le_max_left _ _
    · exact le_trans (ih h2) (le_max_right _ _)

lemma maxScoreList_le {f : SubChat → ℚ} {l : List SubChat} {q : ℚ} (h0 : 0 ≤ q)
    (h : ∀ c ∈ l, f c ≤ q) : maxScoreList f l ≤ q := by
  induction l with
  | nil => exact h0
  | cons a t ih =>
    exact max_le (h a (List.mem_cons_self _ _))
      (ih fun c hc => h c (List.mem_cons_of_mem _ hc))

lemma firstWithScore_isSome {f : SubChat → ℚ} {q : ℚ} {l : List SubChat} {c : SubChat}
    (hc : c ∈ l) (hfc : f c = q) : (firstWithScore f q l).isSome = true := by
  induction l with
  | nil => cases hc
  | cons a t ih =>
    rw [firstWithScore]
    by_cases ha : f a = q
    · rw [if_pos ha]
      rfl
    · rw [if_neg ha]
      rcases List.mem_cons.mp hc with rfl | h2
      · exact absurd hfc ha
      · exact ih h2

lemma firstWithScore_some {f : SubChat → ℚ} {q : ℚ} {l : List SubChat} {m : SubChat}
    (h : firstWithScore f q l = some m) : m ∈ l ∧ f m = q := by
  induction l with
  | nil => simp [firstWithScore] at h
  | cons a t ih =>
    rw [firstWithScore] at h
    by_cases ha : f a = q
    · rw [if_pos ha] at h
      obtain rfl := Option.some.inj h
      exact ⟨List.mem_cons_self _ _, ha⟩
    · rw [if_neg ha] at h
      rcases ih h with ⟨h1, h2⟩
      exact ⟨List.mem_cons_of_mem _ h1, h2⟩

/-- Full characterisation of the `bestMatch`/`bestScore` loop: it returns the earliest
candidate attaining the maximal score, provided that maximum strictly exceeds both the
running best and the 0.3 threshold, and the carried accumulator otherwise. -/
lemma bestLoop_eq (f : SubChat → ℚ) (l : List SubChat) : ∀ (best : Option SubChat) (bs : ℚ),
    bestLoop f l best bs =
      if max bs 0.3 < maxScoreList f l then firstWithScore f (maxScoreList f l) l
      else best := by
  induction l with
  | nil =>
    intro best bs
    have hnot : ¬ (max bs (0.3 : ℚ) < maxScoreList f []) := by
      have h1 : (0 : ℚ) ≤ max bs 0.3 := le_trans (by norm_num) (le_max_right bs 0.3)
      have h2 : maxScoreList f [] = 0 := rfl
      rw [h2]
      exact not_lt.mpr h1
    rw [if_neg hnot]
    rfl
  | cons s t ih =>
    intro best bs
    have hcons : maxScoreList f (s :: t) = max (f s) (maxScoreList f t) := rfl
    have hloop : bestLoop f (s :: t) best bs =
        if f s > bs ∧ f s > 0.3 then bestLoop f t (some s) (f s)
        else bestLoop f t best bs := rfl
    rw [hloop]
    by_cases hA : f s > bs ∧ f s > (0.3 : ℚ)
    · rw [if_pos hA, ih (some s) (f s)]
      by_cases hB : max (f s) (0.3 : ℚ) < maxScoreList f t
      · rw [if_pos hB]
        have hfsM : f s < maxScoreList f t := lt_of_le_of_lt (le_max_left _ _) hB
        have hMt : max (f s) (maxScoreList f t) = maxScoreList f t :=
          max_eq_right (le_of_lt hfsM)
        have hcond : max bs (0.3 : ℚ) < maxScoreList f (s :: t) := by
          rw [hcons, hMt]
          exact max_lt (lt_trans hA.1 hfsM) (lt_of_le_of_lt (le_max_right (f s) 0.3) hB)
        rw [if_pos hcond, hcons, hMt]
        rw [firstWithScore, if_neg (ne_of_lt hfsM)]
      · rw [if_neg hB]
        push_neg at hB
        have hfs3 : max (f s) (0.3 : ℚ) = f s := max_eq_left (le_of_lt hA.2)
        have hMtle : maxScoreList f t ≤ f s := by rw [hfs3] at hB; exact hB
        have hMt : max (f s) (maxScoreList f t) = f s := max_eq_left hMtle
        have hcond : max bs (0.3 : ℚ) < maxScoreList f (s :: t) := by
          rw [hcons, hMt]
          exact max_lt hA.1 hA.2
        rw [if_pos hcond, hcons, hMt]
        rw [firstWithScore, if_pos rfl]
    · rw [if_neg hA, ih best bs]
      push_neg at hA
      have hfsle : f s ≤ max bs (0.3 : ℚ) := by
        by_cases hb : bs < f s
        · exact le_trans (hA hb) (le_max_right _ _)
        · exact le_trans (not_lt.mp hb) (le_max_left _ _)
      by_cases hB : max bs (0.3 : ℚ) < maxScoreList f t
      · rw [if_pos hB]
        have hfsM : f s < maxScoreList f t := lt_of_le_of_lt hfsle hB
        have hMt : max (f s) (maxScoreList f t) = maxScoreList f t :=
          max_eq_right (le_of_lt hfsM)
        have hcond : max bs (0.3 : ℚ) < maxScoreList f (s :: t) := by
          rw [hcons, hMt]
          exact hB
        rw [if_pos hcond, hcons, hMt]
        rw [firstWithScore, if_neg (ne_of_lt hfsM)]
      · rw [if_neg hB]
        have hcond : ¬ (max bs (0.3 : ℚ) < maxScoreList f (s :: t)) := by
          rw [hcons]
          push_neg at hB ⊢
          exact max_le hfsle hB
        rw [if_neg hcond]

/-- The matcher equals: "take the earliest candidate attaining the maximal score if that
maximum exceeds 0.3, else no match". -/
lemma findMatchingSubChat_eq (store : SubChatStore) (sessionCode message : String)
    (intent : ClassifiedOutput) (specificIntentType : Option String) :
    findMatchingSubChat store sessionCode message intent specificIntentType =
      if (0.3 : ℚ) < maxScoreList (scoreAgainst intent message)
          (candidateSubchats store sessionCode intent specificIntentType)
      then firstWithScore (scoreAgainst intent message)
        (maxScoreList (scoreAgainst intent message)
          (candidateSubchats store sessionCode intent specificIntentType))
        (candidateSubchats store sessionCode intent specificIntentType)
      else none := by
  unfold findMatchingSubChat
  cases hget : storeGet store sessionCode with
  | none =>
    have hc : candidateSubchats store sessionCode intent specificIntentType = [] := by
      simp [candidateSubchats, hget]
    rw [hc]
    have hnot : ¬ ((0.3 : ℚ) < maxScoreList (scoreAgainst intent message) []) := by
      have h2 : maxScoreList (scoreAgainst intent message) ([] : List SubChat) = 0 := rfl
      rw [h2]
      norm_num
    rw [if_neg hnot]
  | some l =>
    have hc : candidateSubchats store sessionCode intent specificIntentType =
        l.filter (isCandidate intent specificIntentType) := by
      simp [candidateSubchats, hget]
    rw [hc]
    show (if l.isEmpty = true then none
          else if (l.filter (isCandidate intent specificIntentType)).isEmpty = true then none
          else bestLoop (scoreAgainst intent message)
            (l.filter (isCandidate intent specificIntentType)) none 0) = _
    by_cases hle : l.isEmpty = true
    · rw [if_pos hle]
      have hl : l = [] := List.isEmpty_iff.mp hle
      subst hl
      have hnil : (List.filter (isCandidate intent specificIntentType) ([] : List SubChat)) =
          ([] : List SubChat) := rfl
      rw [hnil]
      have hnot : ¬ ((0.3 : ℚ) < maxScoreList (scoreAgainst intent message) []) := by
        have h2 : maxScoreList (scoreAgainst intent message) ([] : List SubChat) = 0 := rfl
        rw [h2]
        norm_num
      rw [if_neg hnot]
    · rw [if_neg hle]
      by_cases hce : (l.filter (isCandidate intent specificIntentType)).isEmpty = true
      · rw [if_pos hce]
        have hl2 : l.filter (isCandidate intent specificIntentType) = [] :=
          List.isEmpty_iff.mp hce
        rw [hl2]
        have hnot : ¬ ((0.3 : ℚ) < maxScoreList (scoreAgainst intent message) []) := by
          have h2 : maxScoreList (scoreAgainst intent message) ([] : List SubChat) = 0 := rfl
          rw [h2]
          norm_num
        rw [if_neg hnot]
      · rw [if_neg hce, bestLoop_eq]
        have hmax : max (0 : ℚ) 0.3 = 0.3 := max_eq_right (by norm_num)
        rw [hmax]

/-- Claim C3: the matcher returns the candidate with the maximal match score provided
that maximum exceeds 0.30 (ties broken by the earliest candidate in creation order — the
session list is append-ordered), and returns no match exactly when no candidate scores
above 0.30. -/
theorem findMatchingSubChat_selects_best (store : SubChatStore) (sessionCode message : String)
    (intent : ClassifiedOutput) (specificIntentType : Option String) :
    (findMatchingSubChat store sessionCode message intent specificIntentType = none ↔
      ∀ c ∈ candidateSubchats store sessionCode intent specificIntentType,
        scoreAgainst intent message c ≤ 0.3) ∧
    (∀ m, findMatchingSubChat store sessionCode message intent specificIntentType = some m →
      m ∈ candidateSubchats store sessionCode intent specificIntentType ∧
      scoreAgainst intent message m > 0.3 ∧
      (∀ c ∈ candidateSubchats store sessionCode intent specificIntentType,
        scoreAgainst intent message c ≤ scoreAgainst intent message m) ∧
      firstWithScore (scoreAgainst intent message) (scoreAgainst intent message m)
        (candidateSubchats store sessionCode intent specificIntentType) = some m) := by
  rw [findMatchingSubChat_eq]
  by_cases hM : (0.3 : ℚ) < maxScoreList (scoreAgainst intent message)
      (candidateSubchats store sessionCode intent specificIntentType)
  · rw [if_pos hM]
    have hMpos : (0 : ℚ) < maxScoreList (scoreAgainst intent message)
        (candidateSubchats store sessionCode intent specificIntentType) :=
      lt_trans (by norm_num) hM
    have hatt : ∃ c ∈ candidateSubchats store sessionCode intent specificIntentType,
        scoreAgainst intent message c = maxScoreList (scoreAgainst intent message)
          (candidateSubchats store sessionCode intent specificIntentType) := by
      clear hM
      generalize candidateSubchats store sessionCode intent specificIntentType = l at *
      induction l with
      | nil => exact absurd hMpos (by norm_num [maxScoreList])
      | cons a t ih =>
        have hcons : maxScoreList (scoreAgainst intent message) (a :: t) =
            max (scoreAgainst intent message a)
              (maxScoreList (scoreAgainst intent message) t) := rfl
        rcases max_choice (scoreAgainst intent message a)
            (maxScoreList (scoreAgainst intent message) t) with hm | hm
        · exact ⟨a, List.mem_cons_self _ _, by rw [hcons, hm]⟩
        · have h2 : 0 < maxScoreList (scoreAgainst intent message) t := by
            rw [hcons, hm] at hMpos
            exact hMpos
          rcases ih h2 with ⟨c, hcmem, hfc⟩
          exact ⟨c, List.mem_cons_of_mem _ hcmem, by rw [hcons, hm, hfc]⟩
    constructor
    · constructor
      · intro h
        exfalso
        rcases hatt with ⟨c, hcmem, hfc⟩
        have := firstWithScore_isSome hcmem hfc
        rw [h] at this
        exact absurd this (by simp)
      · intro h
        exfalso
        have hle := maxScoreList_le (by norm_num) h
        exact absurd hM (not_lt.mpr hle)
    · intro m hm
      rcases firstWithScore_some hm with ⟨hmem, hscore⟩
      refine ⟨hmem, ?_, ?_, ?_⟩
      · rw [hscore]
        exact hM
      · intro c hc
        rw [hscore]
        exact mem_le_maxScoreList hc
      · rw [hscore]
        exact hm
  · rw [if_neg hM]
    constructor
    · constructor
      · intro _
        intro c hc
        exact le_trans (mem_le_maxScoreList hc) (not_lt.mp hM)
      · intro _
        rfl
    · intro m hm
      exact absurd hm (by simp)

/-- Witness for C3: in `towelStore` the message `"towels"` matches `towelThread`, which is
a candidate scoring above the 0.3 threshold. -/
theorem findMatchingSubChat_selects_best_witness :
    towelThread ∈ candidateSubchats towelStore "s" sampleIntent (some "request") ∧
    scoreAgainst sampleIntent "towels" towelThread > 0.3 :=
  let h := (findMatchingSubChat_selects_best towelStore "s" "towels" sampleIntent
    (some "request")).2 towelThread (by decide)
  ⟨h.1, h.2.1⟩

/-- Claim C9: any thread returned by the matcher is active, non-terminal, and
alias-matches the queried intent type. -/
theorem findMatchingSubChat_candidates_invariant (store : SubChatStore)
    (sessionCode message : String) (intent : ClassifiedOutput)
    (specificIntentType : Option String) (m : SubChat)
    (h : findMatchingSubChat store sessionCode message intent specificIntentType = some m) :
    m.isActive = true ∧ m.status ≠ .resolved ∧ m.status ≠ .cancelled ∧
    typesMatch m.type intent specificIntentType = true := by
  rw [findMatchingSubChat_eq] at h
  by_cases hM : (0.3 : ℚ) < maxScoreList (scoreAgainst intent message)
      (candidateSubchats store sessionCode intent specificIntentType)
  · rw [if_pos hM] at h
    have hmem := (firstWithScore_some h).1
    rcases List.mem_filter.mp hmem with ⟨_, hpred⟩
    simp only [isCandidate, Bool.and_eq_true, Bool.not_eq_true', decide_eq_false_iff_not]
      at hpred
    exact ⟨hpred.1.1.1, hpred.1.1.2, hpred.1.2, hpred.2⟩
  · rw [if_neg hM] at h
    exact absurd h (by simp)

/-- Witness for C9 at the concrete towel match. -/
theorem findMatchingSubChat_candidates_invariant_witness :
    towelThread.isActive = true ∧ towelThread.status ≠ .resolved ∧
    towelThread.status ≠ .cancelled ∧
    typesMatch towelThread.type sampleIntent (some "request") = true :=
  findMatchingSubChat_candidates_invariant towelStore "s" "towels" sampleIntent
    (some "request") towelThread (by decide)
